import Mathlib

/-!
Verification of the reconciliation engine of the Zalando postgres-operator.

Shallow embedding of the Go sources:
  * pkg/cluster/k8sres.go (generateService, getNumberOfInstances,
    isBootstrapOnlyParameter, the parameter routing of
    generateSpiloJSONConfiguration, shouldCreateLoadBalancerForService)
  * pkg/cluster/resources.go (genService, older revision)
  * pkg/cluster/util.go (normalizeUserFlags, waitPodLabelsReady)
  * pkg/cluster/pod.go (deletePod, recreatePod, registerPodSubscriber,
    unregisterPodSubscriber)
  * pkg/util/k8sutil/k8sutil.go (SameService)
  * pkg/controller/postgresql.go (queueClusterEvent)
  * pkg/controller/node.go (nodeUpdate)

Go maps are embedded as association lists, Go slices as `Option (List _)`
(`none` models a nil slice, `some []` a non-nil empty one), Go errors as
`Except String _` or `Option String`, and int32 arithmetic as `Int`
(the involved operations are comparisons and copies, which cannot overflow).
-/

/-! ## Shared small helpers -/

/-- Length of a Go slice: `len(x)` is 0 for a nil slice. -/
def sliceLen {α : Type} : Option (List α) → Nat
  | none => 0
  | some l => l.length

/-! ## getNumberOfInstances (pkg/cluster/k8sres.go) -/

/-- Embedding of `(c *Cluster) getNumberOfInstances`: start from the manifest
value `cur`, cap at `OpConfig.MaxInstances` when that is non-negative, then
raise to `OpConfig.MinInstances` when that is non-negative. -/
def getNumberOfInstances (minInstances maxInstances cur : Int) : Int :=
  let newcur := cur
  let newcur := if maxInstances ≥ 0 ∧ newcur > maxInstances then maxInstances else newcur
  let newcur := if minInstances ≥ 0 ∧ newcur < minInstances then minInstances else newcur
  newcur

/-- The specification's clamp: `clamp(cur, min if min≥0 else −∞, max if max≥0
else +∞)`, written with the disabled bounds dropped. -/
def clampSpec (cur lo hi : Int) : Int :=
  let upper := if hi ≥ 0 then min cur hi else cur
  if lo ≥ 0 then max lo upper else upper

/-! ## isBootstrapOnlyParameter and the Spilo parameter routing
(pkg/cluster/k8sres.go) -/

/-- Embedding of `isBootstrapOnlyParameter`. -/
def isBootstrapOnlyParameter (param : String) : Bool :=
  param == "max_connections" ||
    param == "max_locks_per_transaction" ||
    param == "max_worker_processes" ||
    param == "max_prepared_transactions" ||
    param == "wal_level" ||
    param == "wal_log_hints" ||
    param == "track_commit_timestamp"

/-- The two parameter sections produced by `generateSpiloJSONConfiguration`:
`PgLocalConfiguration["parameters"]` and
`Bootstrap.DCS.PGBootstrapConfiguration["parameters"]`; `none` models the
section being left unset. -/
structure SpiloParameterSections where
  localParameters : Option (List (String × String))
  bootstrapParameters : Option (List (String × String))
  deriving DecidableEq

/-- Embedding of the PostgreSQL-parameter routing fragment of
`generateSpiloJSONConfiguration` (the `if len(pg.Parameters) > 0` block): each
manifest parameter goes to the bootstrap map when `isBootstrapOnlyParameter`
holds and to the local map otherwise, and an empty map leaves its section
unset. -/
def generateSpiloParameterRouting (parameters : List (String × String)) :
    SpiloParameterSections :=
  if parameters.length > 0 then
    let bootstrapParameters := parameters.filter fun kv => isBootstrapOnlyParameter kv.1
    let localParameters := parameters.filter fun kv => !isBootstrapOnlyParameter kv.1
    { localParameters := if localParameters.length > 0 then some localParameters else none
      bootstrapParameters :=
        if bootstrapParameters.length > 0 then some bootstrapParameters else none }
  else
    { localParameters := none, bootstrapParameters := none }

/-! ## SameService (pkg/util/k8sutil/k8sutil.go) -/

/-- `constants.ZalandoDNSNameAnnotation`. -/
def zalandoDNSNameAnnot : String := "external-dns.alpha.kubernetes.io/hostname"

/-- `constants.ElbTimeoutAnnotationName`. -/
def elbTimeoutAnnotName : String :=
  "service.beta.kubernetes.io/aws-load-balancer-connection-idle-timeout"

/-- `constants.ElbTimeoutAnnotationValue`. -/
def elbTimeoutAnnotValue : String := "3600"

/-- The fields of a `v1.Service` that `SameService` inspects. `none` for the
source ranges models a nil slice, `none` for the annotations a nil map. -/
structure K8sService where
  serviceType : String
  loadBalancerSourceRanges : Option (List String)
  annots : Option (List (String × String))
  deriving DecidableEq

/-- Go map indexing `annotations[key]`: the zero value "" when the key is
absent or the map is nil. -/
def annotLookup (annots : Option (List (String × String))) (key : String) : String :=
  match (annots.getD []).lookup key with
  | some v => v
  | none => ""

/-- Embedding of `SameService`: compares the service type, the load-balancer
source ranges (skipping the comparison when both slices are empty, to work
around Kubernetes 1.6 serializing [] as nil), and the DNS and ELB-timeout
annotations. Returns (match, reason). -/
def SameService (cur new : K8sService) : Bool × String :=
  if cur.serviceType ≠ new.serviceType then
    (false, "new service's type doesn't match the current one")
  else
    let oldSourceRanges := cur.loadBalancerSourceRanges
    let newSourceRanges := new.loadBalancerSourceRanges
    if (sliceLen oldSourceRanges ≠ 0 ∨ sliceLen newSourceRanges ≠ 0) ∧
        oldSourceRanges ≠ newSourceRanges then
      (false, "new service's LoadBalancerSourceRange doesn't match the current one")
    else
      let oldDNSAnnot := annotLookup cur.annots zalandoDNSNameAnnot
      let newDNSAnnot := annotLookup new.annots zalandoDNSNameAnnot
      let oldELBAnnot := annotLookup cur.annots elbTimeoutAnnotName
      let newELBAnnot := annotLookup new.annots elbTimeoutAnnotName
      if oldDNSAnnot ≠ newDNSAnnot then
        (false, "new service's DNS annotation value doesn't match the current one")
      else if oldELBAnnot ≠ newELBAnnot then
        (false, "new service's ELB annotation value doesn't match the current one")
      else
        (true, "")

/-! ## nodeUpdate (pkg/controller/node.go) -/

/-- The fields of a `v1.Node` that `nodeUpdate` inspects. -/
structure K8sNode where
  unschedulable : Bool
  labels : List (String × String)
  deriving DecidableEq

/-- Modelled from the spec: the helper `util.MapContains` (its defining file is
absent from the sources; only its unit tests and call sites are present).
Following the tests and the spec's `hasLabel` wording, it holds iff every
key-value pair of the second map occurs in the first. -/
def MapContains (haystack needle : List (String × String)) : Bool :=
  needle.all fun kv => haystack.lookup kv.1 == some kv.2

/-- Embedding of `(c *Controller) nodeUpdate`; returns true iff
`movePodsOffNode` is invoked. A node labelled master:true is skipped, and
nothing happens "if the node should have already triggered an update or if
only one of the label and the unschedulability criteria are met". -/
def nodeUpdate (nodeReadinessLabel : List (String × String)) (prev cur : K8sNode) :
    Bool :=
  if MapContains cur.labels [("master", "true")] then false
  else if (prev.unschedulable && !MapContains prev.labels nodeReadinessLabel) ||
      !cur.unschedulable || MapContains cur.labels nodeReadinessLabel then false
  else true

/-! ## generateService (pkg/cluster/k8sres.go) and genService
(pkg/cluster/resources.go, older revision) -/

/-- `PostgresRole`. -/
inductive PostgresRole where
  | master
  | replica
  deriving DecidableEq

/-- `localHost` constant. -/
def localHost : String := "127.0.0.1/32"

/-- The manifest fields consulted when generating a service. -/
structure PostgresSpecLB where
  enableMasterLoadBalancer : Option Bool
  enableReplicaLoadBalancer : Option Bool
  allowedSourceRanges : Option (List String)
  deriving DecidableEq

/-- Embedding of `shouldCreateLoadBalancerForService`: a per-cluster toggle
wins over the operator configuration. -/
def shouldCreateLoadBalancerForService (opEnableMasterLB opEnableReplicaLB : Bool)
    (role : PostgresRole) (spec : PostgresSpecLB) : Bool :=
  match role with
  | .replica =>
    match spec.enableReplicaLoadBalancer with
    | some b => b
    | none => opEnableReplicaLB
  | .master =>
    match spec.enableMasterLoadBalancer with
    | some b => b
    | none => opEnableMasterLB

/-- The fields of the generated `v1.Service` the source-range claims are
about. -/
structure GeneratedService where
  serviceType : String
  loadBalancerSourceRanges : Option (List String)
  annots : Option (List (String × String))
  deriving DecidableEq

/-- Embedding of the load-balancer part of `(c *Cluster) generateService`.
The Go code initializes `sourceRanges := []string{localHost}` and then
overwrites it whenever `len(allowedSourceRanges) >= 0`, a condition that is
always true. -/
def generateService (opEnableMasterLB opEnableReplicaLB : Bool) (dnsName : String)
    (role : PostgresRole) (spec : PostgresSpecLB) : GeneratedService :=
  if shouldCreateLoadBalancerForService opEnableMasterLB opEnableReplicaLB role spec then
    let sourceRanges : Option (List String) := some [localHost]
    let allowedSourceRanges := spec.allowedSourceRanges
    let sourceRanges :=
      if sliceLen allowedSourceRanges ≥ 0 then allowedSourceRanges else sourceRanges
    { serviceType := "LoadBalancer"
      loadBalancerSourceRanges := sourceRanges
      annots := some [(zalandoDNSNameAnnot, dnsName),
        (elbTimeoutAnnotName, elbTimeoutAnnotValue)] }
  else
    { serviceType := "ClusterIP", loadBalancerSourceRanges := none, annots := none }

/-- Embedding of the older `(c *Cluster) genService`, which has the same
always-true `len(allowedSourceRanges) >= 0` test guarding the same default. -/
def genService (opEnableLoadBalancer : Bool) (dnsName : String)
    (allowedSourceRanges : Option (List String)) : GeneratedService :=
  if opEnableLoadBalancer then
    let sourceRanges : Option (List String) := some [localHost]
    let sourceRanges :=
      if sliceLen allowedSourceRanges ≥ 0 then allowedSourceRanges else sourceRanges
    { serviceType := "LoadBalancer"
      loadBalancerSourceRanges := sourceRanges
      annots := some [(zalandoDNSNameAnnot, dnsName),
        (elbTimeoutAnnotName, elbTimeoutAnnotValue)] }
  else
    { serviceType := "", loadBalancerSourceRanges := none, annots := none }

/-! ## queueClusterEvent (pkg/controller/postgresql.go, both revisions have
identical logic) -/

/-- `spec.EventType`. -/
inductive EventType where
  | add
  | update
  | sync
  | delete
  deriving DecidableEq

/-- The manifest field `queueClusterEvent` consults: `Postgresql.Error`. -/
structure PostgresqlManifest where
  clusterError : Option String
  deriving DecidableEq

/-- `new.Error` as read by `queueClusterEvent`. Dereferencing a nil manifest
would panic in Go; the controller only evaluates it when `new` is non-nil. -/
def manifestError : Option PostgresqlManifest → Option String
  | some pg => pg.clusterError
  | none => none

/-- `spec.ClusterEvent` (the fields the claims are about). -/
structure ClusterEvent where
  eventType : EventType
  oldSpec : Option PostgresqlManifest
  newSpec : Option PostgresqlManifest
  deriving DecidableEq

/-- Embedding of `(c *Controller) queueClusterEvent`: `some e` means the event
`e` was added to the responsible worker's queue, `none` that the call returned
without enqueueing anything. An Update on a cluster whose previous reconcile
errored while the new manifest is valid is turned into a Sync; events other
than Delete that carry a cluster error are dropped. -/
def queueClusterEvent (old new : Option PostgresqlManifest) (et : EventType) :
    Option ClusterEvent :=
  match old with
  | some o =>
    let upgraded := et = .update ∧ manifestError new = none ∧ o.clusterError ≠ none
    let et2 := if upgraded then EventType.sync else et
    let clusterError := if upgraded then manifestError new else o.clusterError
    if clusterError ≠ none ∧ et2 ≠ .delete then none
    else some { eventType := et2, oldSpec := old, newSpec := new }
  | none =>
    let clusterError := manifestError new
    if clusterError ≠ none ∧ et ≠ .delete then none
    else some { eventType := et, oldSpec := old, newSpec := new }

/-! ## normalizeUserFlags (pkg/cluster/util.go) -/

/-- `constants.RoleFlagSuperuser`. -/
def roleFlagSuperuser : String := "SUPERUSER"

/-- `constants.RoleFlagInherit`. -/
def roleFlagInherit : String := "INHERIT"

/-- `constants.RoleFlagLogin`. -/
def roleFlagLogin : String := "LOGIN"

/-- `constants.RoleFlagNoLogin`. -/
def roleFlagNoLogin : String := "NOLOGIN"

/-- `constants.RoleFlagCreateDB`. -/
def roleFlagCreateDB : String := "CREATEDB"

/-- Modelled from the spec: `constants.RoleFlagReplication` is referenced by
`isValidFlag`, but the revision of constants.go among the sources predates it;
it names the PostgreSQL role attribute REPLICATION. -/
def roleFlagReplication : String := "REPLICATION"

/-- Modelled from the spec: `constants.RoleFlagByPassRLS` is referenced by
`isValidFlag`, but the revision of constants.go among the sources predates it;
it names the PostgreSQL role attribute BYPASSRLS. -/
def roleFlagByPassRLS : String := "BYPASSRLS"

/-- The base flags `isValidFlag` iterates over. -/
def validFlagBases : List String :=
  [roleFlagSuperuser, roleFlagLogin, roleFlagCreateDB, roleFlagInherit,
    roleFlagReplication, roleFlagByPassRLS]

/-- Embedding of `isValidFlag`: the flag equals a base flag or its NO form. -/
def isValidFlag (flag : String) : Bool :=
  validFlagBases.any fun validFlag => flag == validFlag || flag == "NO" ++ validFlag

/-- The twelve recognized role flags, used to case on valid flags. -/
def recognizedFlags : List String :=
  ["SUPERUSER", "NOSUPERUSER", "LOGIN", "NOLOGIN", "CREATEDB", "NOCREATEDB",
    "INHERIT", "NOINHERIT", "REPLICATION", "NOREPLICATION", "BYPASSRLS",
    "NOBYPASSRLS"]

/-- Embedding of `invertFlag`: strip or add a NO prefix. (The Go code indexes
`flag[:2]`, which only runs on recognized flags, all longer than two bytes.) -/
def invertFlag (flag : String) : String :=
  if flag.take 2 = "NO" then flag.drop 2 else "NO" ++ flag

/-- Go `strings.ToUpper` for the ASCII flag strings involved: upper-case
every character. (Defined on the character list so that it reduces inside the
kernel.) -/
def toUpperGo (s : String) : String :=
  ⟨s.data.map Char.toUpper⟩

/-- Modelled from the spec: `alphaNumericRegexp` is defined in cluster.go,
which is absent from the sources; the spec requires user flags to consist of
alphanumeric characters. -/
def isAlphaNumeric (s : String) : Bool := s.data.all fun c => c.isAlphanum

/-- Embedding of the first loop of `normalizeUserFlags`: fold over the
supplied flags building `uniqueFlags` (kept in insertion order; the Go map
only ever feeds order-insensitive uses), failing on a non-alphanumeric flag,
an unrecognized upper-cased flag, or a conflict with an inverse flag recorded
earlier. -/
def processUserFlags : List String → List String → Except String (List String)
  | uniqueFlags, [] => .ok uniqueFlags
  | uniqueFlags, flag :: rest =>
    if !isAlphaNumeric flag then
      .error ("user flag \"" ++ flag ++ "\" is not alphanumeric")
    else
      let uflag := (toUpperGo flag)
      if uflag ∈ uniqueFlags then processUserFlags uniqueFlags rest
      else if !isValidFlag uflag then
        .error ("user flag \"" ++ uflag ++ "\" is not valid")
      else if invertFlag uflag ∈ uniqueFlags then
        .error ("conflicting user flags: \"" ++ uflag ++ "\" and \"" ++
          invertFlag uflag ++ "\"")
      else processUserFlags (uniqueFlags ++ [uflag]) rest

/-- Embedding of `normalizeUserFlags`: run the first loop, then emit the
collected flags with NOLOGIN dropped (to stay consistent with
readPgUsersFromDatabase) and LOGIN appended unless LOGIN or NOLOGIN was set
explicitly. -/
def normalizeUserFlags (userFlags : List String) : Except String (List String) :=
  match processUserFlags [] userFlags with
  | .error e => .error e
  | .ok uniqueFlags =>
    let addLogin :=
      !(uniqueFlags.contains roleFlagNoLogin || uniqueFlags.contains roleFlagLogin)
    let flags := uniqueFlags.filter fun k => k != roleFlagNoLogin
    .ok (if addLogin then flags ++ [roleFlagLogin] else flags)

/-- Whether an `Except` result is a success. -/
def exceptOk {ε α : Type} : Except ε α → Bool
  | .ok _ => true
  | .error _ => false

/-- The specification's error condition for `normalizeUserFlags`: some flag is
not alphanumeric, is not a recognized role flag after upper-casing, or forms a
conflicting pair X / NOX with another supplied flag. -/
def flagsError (userFlags : List String) : Prop :=
  (∃ f ∈ userFlags, isAlphaNumeric f = false) ∨
    (∃ f ∈ userFlags, isValidFlag (toUpperGo f) = false) ∨
    (∃ f ∈ userFlags, ∃ g ∈ userFlags, isValidFlag (toUpperGo f) = true ∧
      isValidFlag (toUpperGo g) = true ∧ (toUpperGo f) = invertFlag (toUpperGo g))

/-- The invariant-free success condition of the first loop relative to an
accumulator: every flag alphanumeric and recognized, no flag conflicting with
the accumulator, and no two supplied flags conflicting. -/
def flagsOkAux (acc l : List String) : Bool :=
  (l.all fun f => isAlphaNumeric f && isValidFlag (toUpperGo f)) &&
    (l.all fun f => !(acc.contains (invertFlag (toUpperGo f)))) &&
    (l.all fun f => l.all fun g => (toUpperGo f) != invertFlag (toUpperGo g))

/-- The accumulator invariant of the first loop: collected flags are
recognized and mutually conflict-free. -/
def accInv (acc : List String) : Prop :=
  (∀ a ∈ acc, isValidFlag a = true) ∧ ∀ a ∈ acc, ∀ b ∈ acc, a ≠ invertFlag b

/-! ## waitPodLabelsReady (pkg/cluster/util.go) -/

/-- One execution of the retry closure inside `waitPodLabelsReady`: the sizes
of the master-labelled and replica-labelled pod lists observed by that poll. -/
structure PodLabelsPoll where
  masters : Nat
  replicas : Nat
  deriving DecidableEq

/-- The outcome of `waitPodLabelsReady`: success records whether the cluster
was flagged master-less on the way out. -/
inductive WaitPodLabelsResult where
  | success (masterLess : Bool)
  | tooManyMasters
  | timeout
  deriving DecidableEq

/-- Embedding of `waitPodLabelsReady`: `podsNumber` is the total pod count
listed up-front; the list holds the successive polls of the retry loop, and
exhausting it models the expiry of `OpConfig.ResourceCheckTimeout`. More than
one master errors out; all pods replica flags the cluster master-less and
succeeds; a full set of labels succeeds; anything else retries. -/
def waitPodLabelsReady (podsNumber : Nat) : List PodLabelsPoll → WaitPodLabelsResult
  | [] => .timeout
  | poll :: rest =>
    if poll.masters > 1 then .tooManyMasters
    else if poll.replicas = podsNumber then .success true
    else if poll.masters + poll.replicas = podsNumber then .success false
    else waitPodLabelsReady podsNumber rest

/-- A poll on which the retry closure of `waitPodLabelsReady` neither
terminates nor errors: at most one master but incomplete labelling. -/
def pollRetries (podsNumber : Nat) (q : PodLabelsPoll) : Prop :=
  q.masters ≤ 1 ∧ q.replicas ≠ podsNumber ∧ q.masters + q.replicas ≠ podsNumber

/-! ## deletePod and recreatePod (pkg/cluster/pod.go) -/

/-- `spec.NamespacedName` as (namespace, name). -/
abbrev NamespacedName := String × String

/-- Embedding of `registerPodSubscriber` on the key set of the
`podSubscribers` map; `none` models the Go panic on double subscription. -/
def registerPodSubscriber (subs : List NamespacedName) (podName : NamespacedName) :
    Option (List NamespacedName) :=
  if podName ∈ subs then none else some (subs ++ [podName])

/-- Embedding of `unregisterPodSubscriber` on the key set: closing the channel
and deleting the map entry become removing the key; `none` models the Go panic
when the subscriber is missing. -/
def unregisterPodSubscriber (subs : List NamespacedName) (podName : NamespacedName) :
    Option (List NamespacedName) :=
  if podName ∈ subs then some (subs.erase podName) else none

/-- Embedding of `deletePod`. The Kubernetes delete call and the deletion wait
are abstracted by their outcomes `deleteOk` and `waitOk`; the deferred
`unregisterPodSubscriber` runs on every return path. `none` models a panic,
otherwise the result carries the function's error value and the final
subscriber key set. -/
def deletePod (subs : List NamespacedName) (podName : NamespacedName)
    (deleteOk waitOk : Bool) : Option (Except String Unit × List NamespacedName) :=
  match registerPodSubscriber subs podName with
  | none => none
  | some subs1 =>
    let result : Except String Unit :=
      if !deleteOk then .error "could not delete pod"
      else if !waitOk then .error "pod deletion wait timeout"
      else .ok ()
    match unregisterPodSubscriber subs1 podName with
    | none => none
    | some subs2 => some (result, subs2)

/-- Embedding of `recreatePod`: like `deletePod` with an additional wait for
the replacement pod's role label. -/
def recreatePod (subs : List NamespacedName) (podName : NamespacedName)
    (deleteOk waitDeletionOk waitLabelOk : Bool) :
    Option (Except String Unit × List NamespacedName) :=
  match registerPodSubscriber subs podName with
  | none => none
  | some subs1 =>
    let result : Except String Unit :=
      if !deleteOk then .error "could not delete pod"
      else if !waitDeletionOk then .error "pod deletion wait timeout"
      else if !waitLabelOk then .error "pod label wait timeout"
      else .ok ()
    match unregisterPodSubscriber subs1 podName with
    | none => none
    | some subs2 => some (result, subs2)

/-! ## Theorems -/

/-- Claim C2: for all integer triples (cur, min, max) with min, max in
{-1} ∪ ℕ, `getNumberOfInstances` returns `clamp(cur, min if min ≥ 0 else −∞,
max if max ≥ 0 else +∞)`. -/
theorem getNumberOfInstances_eq_clamp (cur lo hi : Int)
    (hlo : -1 ≤ lo) (hhi : -1 ≤ hi) :
    getNumberOfInstances lo hi cur = clampSpec cur lo hi := by
  simp only [getNumberOfInstances, clampSpec, min_def, max_def]
  split_ifs <;> omega

/-- Witness for C2 at (cur, min, max) = (5, 1, 3). -/
theorem getNumberOfInstances_eq_clamp_witness :
    (-1 ≤ (1 : Int)) ∧ (-1 ≤ (3 : Int)) ∧
      getNumberOfInstances 1 3 5 = clampSpec 5 1 3 :=
  ⟨by decide, by decide, getNumberOfInstances_eq_clamp 5 1 3 (by decide) (by decide)⟩

/-- Claim C6: `isBootstrapOnlyParameter` is true exactly on the seven listed
parameters, and the parameter routing of `generateSpiloJSONConfiguration` puts
exactly those manifest parameters in the bootstrap DCS section and all others
in the local section. -/
theorem bootstrapParameter_routing :
    (∀ p : String, isBootstrapOnlyParameter p = true ↔
      p ∈ ["max_connections", "max_locks_per_transaction", "max_worker_processes",
        "max_prepared_transactions", "wal_level", "wal_log_hints",
        "track_commit_timestamp"]) ∧
    ∀ (params : List (String × String)) (p v : String), (p, v) ∈ params →
      (((p, v) ∈ (generateSpiloParameterRouting params).bootstrapParameters.getD []) ↔
        isBootstrapOnlyParameter p = true) ∧
      (((p, v) ∈ (generateSpiloParameterRouting params).localParameters.getD []) ↔
        isBootstrapOnlyParameter p = false) := by
  constructor
  · intro p
    simp only [isBootstrapOnlyParameter, Bool.or_eq_true, beq_iff_eq,
      List.mem_cons, List.mem_singleton]
    tauto
  · intro params p v hmem
    have hlen : params.length > 0 := by
      cases params with
      | nil => cases hmem
      | cons a l => simp
    unfold generateSpiloParameterRouting
    simp only [if_pos hlen]
    constructor
    · constructor
      · intro hin
        by_cases hb :
            (params.filter fun kv => isBootstrapOnlyParameter kv.1).length > 0
        · simp only [if_pos hb, Option.getD_some] at hin
          exact (List.mem_filter.mp hin).2
        · simp only [if_neg hb, Option.getD_none] at hin
          cases hin
      · intro hp
        have hfin : (p, v) ∈ params.filter fun kv => isBootstrapOnlyParameter kv.1 :=
          List.mem_filter.mpr ⟨hmem, hp⟩
        have hb : (params.filter fun kv => isBootstrapOnlyParameter kv.1).length > 0 :=
          List.length_pos.mpr (List.ne_nil_of_mem hfin)
        simpa only [if_pos hb, Option.getD_some] using hfin
    · constructor
      · intro hin
        by_cases hb :
            (params.filter fun kv => !isBootstrapOnlyParameter kv.1).length > 0
        · simp only [if_pos hb, Option.getD_some] at hin
          have := (List.mem_filter.mp hin).2
          simpa using this
        · simp only [if_neg hb, Option.getD_none] at hin
          cases hin
      · intro hp
        have hfin : (p, v) ∈ params.filter fun kv => !isBootstrapOnlyParameter kv.1 :=
          List.mem_filter.mpr ⟨hmem, by simp [hp]⟩
        have hb : (params.filter fun kv => !isBootstrapOnlyParameter kv.1).length > 0 :=
          List.length_pos.mpr (List.ne_nil_of_mem hfin)
        simpa only [if_pos hb, Option.getD_some] using hfin

/-- Witness for C6 at the parameter list [("max_connections", "100"),
("shared_buffers", "32MB")]. -/
theorem bootstrapParameter_routing_witness :
    (("max_connections", "100") ∈
        ([("max_connections", "100"), ("shared_buffers", "32MB")] :
          List (String × String))) ∧
      ((("max_connections", "100") ∈
          (generateSpiloParameterRouting
            [("max_connections", "100"), ("shared_buffers", "32MB")]).bootstrapParameters.getD []) ↔
        isBootstrapOnlyParameter "max_connections" = true) :=
  ⟨by decide,
    (bootstrapParameter_routing.2
      [("max_connections", "100"), ("shared_buffers", "32MB")]
      "max_connections" "100" (by decide)).1⟩

/-- Helper: the SameService source-range guard (skip when both slices are
empty, then deep-equality) is exactly inequality after identifying a nil
slice with the empty one. -/
theorem sourceRanges_guard_iff (a b : Option (List String)) :
    ((sliceLen a ≠ 0 ∨ sliceLen b ≠ 0) ∧ a ≠ b) ↔ a.getD [] ≠ b.getD [] := by
  cases a with
  | none =>
    cases b with
    | none => simp [sliceLen]
    | some m =>
      simp only [sliceLen, Option.getD_none, Option.getD_some]
      constructor
      · rintro ⟨h, -⟩
        rcases h with h | h
        · exact absurd rfl h
        · intro he
          exact h (by simp [← he])
      · intro h
        refine ⟨Or.inr ?_, by simp⟩
        intro hlen
        exact h (List.length_eq_zero.mp hlen).symm
  | some l =>
    cases b with
    | none =>
      simp only [sliceLen, Option.getD_none, Option.getD_some]
      constructor
      · rintro ⟨h, -⟩
        rcases h with h | h
        · intro he
          exact h (by simp [he])
        · exact absurd rfl h
      · intro h
        refine ⟨Or.inl ?_, by simp⟩
        intro hlen
        exact h (List.length_eq_zero.mp hlen)
    | some m =>
      simp only [sliceLen, Option.getD_some, ne_eq, Option.some.injEq]
      constructor
      · rintro ⟨-, h⟩
        exact h
      · intro h
        refine ⟨?_, h⟩
        by_contra hc
        push_neg at hc
        obtain ⟨h1, h2⟩ := hc
        exact h ((List.length_eq_zero.mp h1).trans (List.length_eq_zero.mp h2).symm)

/-- Claim C7: `SameService` returns match = false iff the service type
differs, or the load-balancer source ranges differ (nil identified with the
empty list), or the external-DNS hostname annotation differs, or the ELB
connection-idle-timeout annotation differs. -/
theorem SameService_spec (cur new : K8sService) :
    (SameService cur new).1 = false ↔
      (cur.serviceType ≠ new.serviceType ∨
        cur.loadBalancerSourceRanges.getD [] ≠ new.loadBalancerSourceRanges.getD [] ∨
        annotLookup cur.annots zalandoDNSNameAnnot ≠
          annotLookup new.annots zalandoDNSNameAnnot ∨
        annotLookup cur.annots elbTimeoutAnnotName ≠
          annotLookup new.annots elbTimeoutAnnotName) := by
  unfold SameService
  dsimp only
  split_ifs with h1 h2 h3 h4
  · simp [h1]
  · simp only [true_iff]
    exact Or.inr (Or.inl ((sourceRanges_guard_iff _ _).mp h2))
  · simp only [true_iff]
    exact Or.inr (Or.inr (Or.inl h3))
  · simp only [true_iff]
    exact Or.inr (Or.inr (Or.inr h4))
  · simp only [Bool.true_eq_false, false_iff]
    push_neg
    push_neg at h1 h3 h4
    refine ⟨h1, ?_, h3, h4⟩
    have := (sourceRanges_guard_iff cur.loadBalancerSourceRanges
      new.loadBalancerSourceRanges).not.mp h2
    push_neg at this
    exact this

/-- Claim C3 counterexample: a node that was already unschedulable but carried
the readiness label, and then loses the label, triggers `movePodsOffNode` even
though `prev.unschedulable = true`; the claim requires
`prev.unschedulable = false` for every invocation. -/
theorem nodeUpdate_prev_unschedulable_counterexample :
    nodeUpdate [("lifecycle-status", "ready")]
        { unschedulable := true, labels := [("lifecycle-status", "ready")] }
        { unschedulable := true, labels := [] } = true ∧
      ({ unschedulable := true, labels := [("lifecycle-status", "ready")] } :
        K8sNode).unschedulable ≠ false := by
  decide

/-- Claim C3 (amended): `movePodsOffNode` is invoked exactly when the current
node is unschedulable without the readiness label, the previous node state did
not already satisfy that condition (it was schedulable or still carried the
readiness label), and the node does not carry the label master:true. -/
theorem nodeUpdate_spec (rl : List (String × String)) (prev cur : K8sNode) :
    nodeUpdate rl prev cur = true ↔
      (cur.unschedulable = true ∧ MapContains cur.labels rl = false ∧
        (prev.unschedulable = false ∨ MapContains prev.labels rl = true) ∧
        MapContains cur.labels [("master", "true")] = false) := by
  cases hm : MapContains cur.labels [("master", "true")] <;>
    cases hcu : cur.unschedulable <;>
      cases hpu : prev.unschedulable <;>
        cases hpl : MapContains prev.labels rl <;>
          cases hcl : MapContains cur.labels rl <;>
            simp [nodeUpdate, hm, hcu, hpu, hpl, hcl]

/-- Claim C1: with the load balancer enabled and `allowedSourceRanges` present
but empty, both `generateService` and `genService` emit
`loadBalancerSourceRanges = []` rather than the documented
`["127.0.0.1/32"]` default: the guard `len(allowedSourceRanges) >= 0` is
always true, so the `localHost` default it was meant to protect is dead. -/
theorem generateService_emptySourceRanges_bug :
    (generateService true true "test.acid.db.example.com" .master
        { enableMasterLoadBalancer := none, enableReplicaLoadBalancer := none,
          allowedSourceRanges := some [] }).loadBalancerSourceRanges = some [] ∧
      (genService true "test.acid.db.example.com"
        (some [])).loadBalancerSourceRanges = some [] ∧
      some ([] : List String) ≠ some [localHost] := by
  decide

/-- Claim C4 counterexample: an Update where both the old and the new manifest
carry an error is not enqueued at all, while the claim promises an enqueued
Sync whenever the old manifest's Error is non-nil. -/
theorem queueClusterEvent_update_bothErrors_dropped :
    queueClusterEvent (some { clusterError := some "create failed" })
        (some { clusterError := some "invalid manifest" }) .update = none ∧
      (some "create failed" : Option String) ≠ none := by
  decide

/-- Claim C4 (amended): an Update on a cluster whose previous reconcile
errored is upgraded to Sync and enqueued when the new manifest carries no
error; when the new manifest also carries an error, the event is dropped. -/
theorem queueClusterEvent_update_of_oldError (o n : PostgresqlManifest)
    (h : o.clusterError ≠ none) :
    queueClusterEvent (some o) (some n) .update =
      if n.clusterError = none then
        some { eventType := .sync, oldSpec := some o, newSpec := some n }
      else none := by
  unfold queueClusterEvent manifestError
  by_cases hn : n.clusterError = none
  · simp [hn, h]
  · simp [hn, h]

/-- Witness for the amended C4 at old.Error = "boom", new.Error = nil. -/
theorem queueClusterEvent_update_of_oldError_witness :
    ((some "boom" : Option String) ≠ none) ∧
      queueClusterEvent (some { clusterError := some "boom" })
          (some { clusterError := none }) .update =
        some { eventType := .sync, oldSpec := some { clusterError := some "boom" },
               newSpec := some { clusterError := none } } := by
  refine ⟨by decide, ?_⟩
  rw [queueClusterEvent_update_of_oldError _ _ (by decide)]
  decide

/-- Claim C10 counterexample: an Update whose old manifest carries a non-nil
Error but whose new manifest is error-free is enqueued (as a Sync), while the
claim says no Add/Update/Sync event referencing an errored manifest is ever
enqueued. -/
theorem queueClusterEvent_oldError_enqueuedAsSync :
    queueClusterEvent (some { clusterError := some "sync failed" })
        (some { clusterError := none }) .update =
      some { eventType := .sync,
             oldSpec := some { clusterError := some "sync failed" },
             newSpec := some { clusterError := none } } ∧
      (some "sync failed" : Option String) ≠ none := by
  decide

/-- Claim C10 (amended): Add and Sync calls whose manifest carries a non-nil
Error are dropped; an Update both of whose manifests carry non-nil Errors is
dropped; Delete events are always enqueued. (An Update whose old manifest
errored but whose new one is valid is enqueued as Sync, see the
counterexample.) -/
theorem queueClusterEvent_invalid_filter :
    (∀ n : PostgresqlManifest, n.clusterError ≠ none →
      queueClusterEvent none (some n) .add = none ∧
        queueClusterEvent none (some n) .sync = none) ∧
      (∀ o n : PostgresqlManifest, o.clusterError ≠ none → n.clusterError ≠ none →
        queueClusterEvent (some o) (some n) .update = none) ∧
      (∀ (o : PostgresqlManifest) (new : Option PostgresqlManifest),
        queueClusterEvent (some o) new .delete =
          some { eventType := .delete, oldSpec := some o, newSpec := new }) := by
  refine ⟨fun n hn => ⟨?_, ?_⟩, fun o n ho hn => ?_, fun o new => ?_⟩
  · simp [queueClusterEvent, manifestError, hn]
  · simp [queueClusterEvent, manifestError, hn]
  · simp [queueClusterEvent, manifestError, ho, hn]
  · simp [queueClusterEvent, manifestError]

/-- Witness for the amended C10 at an Add with Error = "e1", an Update with
both errors set, and a Delete. -/
theorem queueClusterEvent_invalid_filter_witness :
    ((some "e1" : Option String) ≠ none) ∧
      queueClusterEvent none (some { clusterError := some "e1" }) .add = none ∧
      queueClusterEvent (some { clusterError := some "e1" })
        (some { clusterError := some "e2" }) .update = none := by
  refine ⟨by decide, ?_, ?_⟩
  · exact (queueClusterEvent_invalid_filter.1 { clusterError := some "e1" }
      (by decide)).1
  · exact queueClusterEvent_invalid_filter.2.1 { clusterError := some "e1" }
      { clusterError := some "e2" } (by decide) (by decide)

/-- Claim C9: starting from a state with no subscriber registered for the
pod, both `deletePod` and `recreatePod` return without panicking for every
outcome of the delete call and the waits, and the deferred unregister leaves
no `podSubscribers` entry for that pod on any return path. -/
theorem podSubscriber_released (subs : List NamespacedName)
    (podName : NamespacedName) (h : podName ∉ subs) :
    (∀ deleteOk waitOk, ∃ r subs2,
      deletePod subs podName deleteOk waitOk = some (r, subs2) ∧
        podName ∉ subs2) ∧
      (∀ deleteOk waitDeletionOk waitLabelOk, ∃ r subs2,
        recreatePod subs podName deleteOk waitDeletionOk waitLabelOk =
            some (r, subs2) ∧
          podName ∉ subs2) := by
  have hreg : registerPodSubscriber subs podName = some (subs ++ [podName]) := by
    simp [registerPodSubscriber, h]
  have hmem : podName ∈ subs ++ [podName] := by simp
  have herase : (subs ++ [podName]).erase podName = subs := by
    rw [List.erase_append_right _ h]
    simp
  have hunreg : unregisterPodSubscriber (subs ++ [podName]) podName = some subs := by
    simp [unregisterPodSubscriber, hmem, herase]
  constructor
  · intro deleteOk waitOk
    refine ⟨if !deleteOk then .error "could not delete pod"
      else if !waitOk then .error "pod deletion wait timeout" else .ok (),
      subs, ?_, h⟩
    simp [deletePod, hreg, hunreg]
  · intro deleteOk waitDeletionOk waitLabelOk
    refine ⟨if !deleteOk then .error "could not delete pod"
      else if !waitDeletionOk then .error "pod deletion wait timeout"
      else if !waitLabelOk then .error "pod label wait timeout" else .ok (),
      subs, ?_, h⟩
    simp [recreatePod, hreg, hunreg]

/-- Witness for C9 at an empty subscriber map and a failing delete call. -/
theorem podSubscriber_released_witness :
    (("default", "test-0") ∉ ([] : List NamespacedName)) ∧
      ∃ r subs2, deletePod [] ("default", "test-0") false true = some (r, subs2) ∧
        ("default", "test-0") ∉ subs2 :=
  ⟨by decide, (podSubscriber_released [] ("default", "test-0") (by decide)).1
    false true⟩

/-- Claim C8 counterexample: with two pods of which one is labelled replica
and the other never acquires a label, no poll ever observes a master, yet the
wait returns a timeout error (and never flags the cluster master-less), where
the claim promises a master-less success. -/
theorem waitPodLabelsReady_timeout_counterexample :
    waitPodLabelsReady 2 [⟨0, 1⟩, ⟨0, 1⟩] = .timeout ∧
      ∀ b, WaitPodLabelsResult.timeout ≠ .success b := by
  decide

/-- Helper: polls on which the retry closure neither terminates nor errors
are skipped by `waitPodLabelsReady`. -/
theorem waitPodLabelsReady_append_retries (n : Nat) (pre l : List PodLabelsPoll)
    (hpre : ∀ q ∈ pre, pollRetries n q) :
    waitPodLabelsReady n (pre ++ l) = waitPodLabelsReady n l := by
  induction pre with
  | nil => rfl
  | cons q pre ih =>
    obtain ⟨h1, h2, h3⟩ := hpre q (by simp)
    simp only [List.cons_append, waitPodLabelsReady]
    rw [if_neg (by omega), if_neg h2, if_neg h3]
    exact ih fun q' hq' => hpre q' (by simp [hq'])

/-- Claim C8 (amended): a poll observing more than one master (after only
non-terminating polls) makes the wait return an error; a poll observing every
pod labelled replica flags the cluster master-less and returns success
immediately; and when every poll within the resource-check timeout observes
at most one master and incomplete labelling, the wait returns a timeout error
without flagging the cluster master-less. -/
theorem waitPodLabelsReady_spec (n : Nat) :
    (∀ (pre : List PodLabelsPoll) (poll : PodLabelsPoll)
        (rest : List PodLabelsPoll), (∀ q ∈ pre, pollRetries n q) →
      poll.masters > 1 →
        waitPodLabelsReady n (pre ++ poll :: rest) = .tooManyMasters) ∧
      (∀ (pre : List PodLabelsPoll) (poll : PodLabelsPoll)
          (rest : List PodLabelsPoll), (∀ q ∈ pre, pollRetries n q) →
        poll.masters ≤ 1 → poll.replicas = n →
          waitPodLabelsReady n (pre ++ poll :: rest) = .success true) ∧
      ∀ polls : List PodLabelsPoll, (∀ q ∈ polls, pollRetries n q) →
        waitPodLabelsReady n polls = .timeout := by
  refine ⟨fun pre poll rest hpre hm => ?_, fun pre poll rest hpre hm hr => ?_,
    fun polls hpolls => ?_⟩
  · rw [waitPodLabelsReady_append_retries n pre _ hpre]
    simp [waitPodLabelsReady, hm]
  · rw [waitPodLabelsReady_append_retries n pre _ hpre]
    rw [waitPodLabelsReady]
    rw [if_neg (by omega), if_pos hr]
  · have := waitPodLabelsReady_append_retries n polls [] hpolls
    simpa using this

/-- Witness for the amended C8: one inconclusive poll followed by an
all-replica poll over two pods. -/
theorem waitPodLabelsReady_spec_witness :
    (∀ q ∈ [(⟨1, 0⟩ : PodLabelsPoll)], pollRetries 2 q) ∧
      ((⟨0, 2⟩ : PodLabelsPoll).masters ≤ 1) ∧
      ((⟨0, 2⟩ : PodLabelsPoll).replicas = 2) ∧
      waitPodLabelsReady 2 ([⟨1, 0⟩] ++ ⟨0, 2⟩ :: []) = .success true := by
  have hpre : ∀ q ∈ [(⟨1, 0⟩ : PodLabelsPoll)], pollRetries 2 q := by
    intro q hq
    simp only [List.mem_singleton] at hq
    subst hq
    exact ⟨by decide, by decide, by decide⟩
  exact ⟨hpre, by decide, by decide,
    (waitPodLabelsReady_spec 2).2.1 [⟨1, 0⟩] ⟨0, 2⟩ [] hpre (by decide) (by decide)⟩

/-- Helper: Bool equality from the equivalence of truth. -/
theorem bool_eq_of_iff {a b : Bool} (h : a = true ↔ b = true) : a = b := by
  cases a <;> cases b <;> simp_all

/-- Helper: a flag is valid iff it is one of the twelve recognized flags. -/
theorem isValidFlag_mem (f : String) : isValidFlag f = true ↔ f ∈ recognizedFlags := by
  have e1 : "NO" ++ "SUPERUSER" = "NOSUPERUSER" := rfl
  have e2 : "NO" ++ "LOGIN" = "NOLOGIN" := rfl
  have e3 : "NO" ++ "CREATEDB" = "NOCREATEDB" := rfl
  have e4 : "NO" ++ "INHERIT" = "NOINHERIT" := rfl
  have e5 : "NO" ++ "REPLICATION" = "NOREPLICATION" := rfl
  have e6 : "NO" ++ "BYPASSRLS" = "NOBYPASSRLS" := rfl
  simp only [isValidFlag, validFlagBases, roleFlagSuperuser, roleFlagLogin,
    roleFlagCreateDB, roleFlagInherit, roleFlagReplication, roleFlagByPassRLS,
    recognizedFlags, List.any_cons, List.any_nil, Bool.or_eq_true, beq_iff_eq,
    Bool.or_false, List.mem_cons, List.not_mem_nil, or_false,
    e1, e2, e3, e4, e5, e6]
  tauto

/-- Helper: inverting a recognized flag twice is the identity. -/
theorem invertFlag_invertFlag {f : String} (hf : isValidFlag f = true) :
    invertFlag (invertFlag f) = f := by
  rw [isValidFlag_mem] at hf
  fin_cases hf <;> decide

/-- Helper: no recognized flag is its own inverse. -/
theorem ne_invertFlag_self {f : String} (hf : isValidFlag f = true) :
    f ≠ invertFlag f := by
  rw [isValidFlag_mem] at hf
  fin_cases hf <;> decide

/-- Helper: the condition `flagsOkAux` unfolded to propositions. -/
theorem flagsOkAux_eq_true (acc l : List String) : flagsOkAux acc l = true ↔
    ((∀ f ∈ l, isAlphaNumeric f = true ∧ isValidFlag (toUpperGo f) = true) ∧
      (∀ f ∈ l, invertFlag (toUpperGo f) ∉ acc) ∧
      ∀ f ∈ l, ∀ g ∈ l, (toUpperGo f) ≠ invertFlag (toUpperGo g)) := by
  simp [flagsOkAux, List.all_eq_true, Bool.and_eq_true, List.elem_iff,
    bne_iff_ne]
  tauto

/-- Helper: the empty accumulator satisfies the invariant. -/
theorem accInv_nil : accInv [] := ⟨by simp, by simp⟩

/-- Helper: within an invariant accumulator, the inverse of a member is not a
member. -/
theorem accInv_not_inv_mem {acc : List String} {u : String} (hinv : accInv acc)
    (hu : u ∈ acc) : invertFlag u ∉ acc :=
  fun h => hinv.2 (invertFlag u) h u hu rfl

/-- Helper: pushing a valid, non-conflicting flag preserves the accumulator
invariant. -/
theorem accInv_push {acc : List String} {u : String} (hinv : accInv acc)
    (hu : isValidFlag u = true) (hninv : invertFlag u ∉ acc) :
    accInv (acc ++ [u]) := by
  obtain ⟨hval, hconf⟩ := hinv
  constructor
  · intro a ha
    rcases List.mem_append.mp ha with h | h
    · exact hval a h
    · rw [List.mem_singleton] at h
      subst h
      exact hu
  · intro a ha b hb
    rcases List.mem_append.mp ha with ha' | ha' <;>
      rcases List.mem_append.mp hb with hb' | hb'
    · exact hconf a ha' b hb'
    · rw [List.mem_singleton] at hb'
      subst hb'
      intro he
      exact hninv (he ▸ ha')
    · rw [List.mem_singleton] at ha'
      subst ha'
      intro he
      apply hninv
      rw [he, invertFlag_invertFlag (hval b hb')]
      exact hb'
    · rw [List.mem_singleton] at ha' hb'
      subst ha'
      subst hb'
      exact ne_invertFlag_self hu

/-- Helper: under the accumulator invariant, the first loop of
`normalizeUserFlags` succeeds exactly when `flagsOkAux` holds. -/
theorem processUserFlags_isOk (l : List String) : ∀ acc, accInv acc →
    exceptOk (processUserFlags acc l) = flagsOkAux acc l := by
  induction l with
  | nil =>
    intro acc _
    simp [processUserFlags, flagsOkAux, exceptOk]
  | cons flag rest ih =>
    intro acc hinv
    by_cases han : isAlphaNumeric flag = true
    · by_cases hmem : (toUpperGo flag) ∈ acc
      · have heq : processUserFlags acc (flag :: rest) = processUserFlags acc rest := by
          simp [processUserFlags, han, hmem]
        rw [heq, ih acc hinv]
        have huval : isValidFlag (toUpperGo flag) = true := hinv.1 _ hmem
        have hninv : invertFlag (toUpperGo flag) ∉ acc := accInv_not_inv_mem hinv hmem
        apply bool_eq_of_iff
        rw [flagsOkAux_eq_true, flagsOkAux_eq_true]
        constructor
        · rintro ⟨h1, h2, h3⟩
          refine ⟨?_, ?_, ?_⟩
          · intro f hf
            rcases List.mem_cons.mp hf with hf' | hf'
            · subst hf'
              exact ⟨han, huval⟩
            · exact h1 f hf'
          · intro f hf
            rcases List.mem_cons.mp hf with hf' | hf'
            · subst hf'
              exact hninv
            · exact h2 f hf'
          · intro f hf g hg
            rcases List.mem_cons.mp hf with hf' | hf' <;>
              rcases List.mem_cons.mp hg with hg' | hg'
            · subst hf'
              subst hg'
              exact ne_invertFlag_self huval
            · subst hf'
              intro he
              exact (h2 g hg') (he ▸ hmem)
            · subst hg'
              intro he
              apply h2 f hf'
              rw [he, invertFlag_invertFlag huval]
              exact hmem
            · exact h3 f hf' g hg'
        · rintro ⟨h1, h2, h3⟩
          exact ⟨fun f hf => h1 f (List.mem_cons_of_mem _ hf),
            fun f hf => h2 f (List.mem_cons_of_mem _ hf),
            fun f hf g hg => h3 f (List.mem_cons_of_mem _ hf)
              g (List.mem_cons_of_mem _ hg)⟩
      · by_cases hval : isValidFlag (toUpperGo flag) = true
        · by_cases hconf : invertFlag (toUpperGo flag) ∈ acc
          · have heq : exceptOk (processUserFlags acc (flag :: rest)) = false := by
              simp [processUserFlags, han, hmem, hval, hconf, exceptOk]
            rw [heq]
            symm
            rw [Bool.eq_false_iff]
            rw [Ne, flagsOkAux_eq_true]
            rintro ⟨-, h2, -⟩
            exact (h2 flag (by simp)) hconf
          · have heq : processUserFlags acc (flag :: rest) =
                processUserFlags (acc ++ [(toUpperGo flag)]) rest := by
              simp [processUserFlags, han, hmem, hval, hconf]
            rw [heq, ih _ (accInv_push hinv hval hconf)]
            apply bool_eq_of_iff
            rw [flagsOkAux_eq_true, flagsOkAux_eq_true]
            constructor
            · rintro ⟨h1, h2, h3⟩
              refine ⟨?_, ?_, ?_⟩
              · intro f hf
                rcases List.mem_cons.mp hf with hf' | hf'
                · subst hf'
                  exact ⟨han, hval⟩
                · exact h1 f hf'
              · intro f hf
                rcases List.mem_cons.mp hf with hf' | hf'
                · subst hf'
                  exact hconf
                · intro hin
                  exact h2 f hf' (List.mem_append.mpr (Or.inl hin))
              · intro f hf g hg
                rcases List.mem_cons.mp hf with hf' | hf' <;>
                  rcases List.mem_cons.mp hg with hg' | hg'
                · subst hf'
                  subst hg'
                  exact ne_invertFlag_self hval
                · subst hf'
                  intro he
                  exact h2 g hg' (List.mem_append.mpr (Or.inr (by simp [← he])))
                · subst hg'
                  intro he
                  apply h2 f hf'
                  rw [he, invertFlag_invertFlag hval]
                  exact List.mem_append.mpr (Or.inr (by simp))
                · exact h3 f hf' g hg'
            · rintro ⟨h1, h2, h3⟩
              refine ⟨fun f hf => h1 f (List.mem_cons_of_mem _ hf), ?_, ?_⟩
              · intro f hf hin
                rcases List.mem_append.mp hin with hin' | hin'
                · exact h2 f (List.mem_cons_of_mem _ hf) hin'
                · rw [List.mem_singleton] at hin'
                  exact h3 flag (by simp) f (List.mem_cons_of_mem _ hf) hin'.symm
              · intro f hf g hg
                exact h3 f (List.mem_cons_of_mem _ hf) g (List.mem_cons_of_mem _ hg)
        · have heq : exceptOk (processUserFlags acc (flag :: rest)) = false := by
            simp [processUserFlags, han, hmem, hval, exceptOk]
          rw [heq]
          symm
          rw [Bool.eq_false_iff]
          rw [Ne, flagsOkAux_eq_true]
          rintro ⟨h1, -, -⟩
          exact hval (h1 flag (by simp)).2
    · have heq : exceptOk (processUserFlags acc (flag :: rest)) = false := by
        simp [processUserFlags, han, exceptOk]
      rw [heq]
      symm
      rw [Bool.eq_false_iff]
      rw [Ne, flagsOkAux_eq_true]
      rintro ⟨h1, -, -⟩
      exact han (h1 flag (by simp)).1

/-- Helper: membership in the accumulator returned by a successful first
loop: the initial accumulator plus the upper-cased supplied flags. -/
theorem processUserFlags_mem (l : List String) : ∀ acc out,
    processUserFlags acc l = .ok out →
    ∀ a, a ∈ out ↔ a ∈ acc ∨ ∃ f ∈ l, (toUpperGo f) = a := by
  induction l with
  | nil =>
    intro acc out h a
    simp only [processUserFlags, Except.ok.injEq] at h
    subst h
    simp
  | cons flag rest ih =>
    intro acc out h a
    by_cases han : isAlphaNumeric flag = true
    · by_cases hmem : (toUpperGo flag) ∈ acc
      · rw [show processUserFlags acc (flag :: rest) = processUserFlags acc rest by
          simp [processUserFlags, han, hmem]] at h
        rw [ih acc out h a]
        simp only [List.exists_mem_cons_iff]
        constructor
        · rintro (ha | hex)
          · exact Or.inl ha
          · exact Or.inr (Or.inr hex)
        · rintro (ha | he | hex)
          · exact Or.inl ha
          · exact Or.inl (he ▸ hmem)
          · exact Or.inr hex
      · by_cases hval : isValidFlag (toUpperGo flag) = true
        · by_cases hconf : invertFlag (toUpperGo flag) ∈ acc
          · rw [show processUserFlags acc (flag :: rest) =
                .error ("conflicting user flags: \"" ++ (toUpperGo flag) ++ "\" and \"" ++
                  invertFlag (toUpperGo flag) ++ "\"") by
              simp [processUserFlags, han, hmem, hval, hconf]] at h
            cases h
          · rw [show processUserFlags acc (flag :: rest) =
                processUserFlags (acc ++ [(toUpperGo flag)]) rest by
              simp [processUserFlags, han, hmem, hval, hconf]] at h
            rw [ih _ out h a]
            simp only [List.mem_append, List.mem_singleton,
              List.exists_mem_cons_iff]
            constructor
            · rintro ((ha | ha) | hex)
              · exact Or.inl ha
              · exact Or.inr (Or.inl ha.symm)
              · exact Or.inr (Or.inr hex)
            · rintro (ha | he | hex)
              · exact Or.inl (Or.inl ha)
              · exact Or.inl (Or.inr he.symm)
              · exact Or.inr hex
        · rw [show processUserFlags acc (flag :: rest) =
              .error ("user flag \"" ++ (toUpperGo flag) ++ "\" is not valid") by
            simp [processUserFlags, han, hmem, hval]] at h
          cases h
    · rw [show processUserFlags acc (flag :: rest) =
          .error ("user flag \"" ++ flag ++ "\" is not alphanumeric") by
        simp [processUserFlags, han]] at h
      cases h

/-- Helper: `normalizeUserFlags` succeeds exactly when its first loop does. -/
theorem normalizeUserFlags_isOk (l : List String) :
    exceptOk (normalizeUserFlags l) = exceptOk (processUserFlags [] l) := by
  cases h : processUserFlags [] l <;> simp [normalizeUserFlags, h, exceptOk]

/-- Helper: over the empty accumulator, failing `flagsOkAux` is exactly the
specification's error condition. -/
theorem flagsOkAux_nil_false (l : List String) :
    flagsOkAux [] l = false ↔ flagsError l := by
  rw [← Bool.not_eq_true, flagsOkAux_eq_true]
  unfold flagsError
  constructor
  · intro h
    by_cases h1 : ∀ f ∈ l, isAlphaNumeric f = true ∧ isValidFlag (toUpperGo f) = true
    · have h2 : ∀ f ∈ l, invertFlag (toUpperGo f) ∉ ([] : List String) := by simp
      have h3 : ¬ ∀ f ∈ l, ∀ g ∈ l, (toUpperGo f) ≠ invertFlag (toUpperGo g) :=
        fun hc => h ⟨h1, h2, hc⟩
      push_neg at h3
      obtain ⟨f, hf, g, hg, he⟩ := h3
      exact Or.inr (Or.inr ⟨f, hf, g, hg, (h1 f hf).2, (h1 g hg).2, he⟩)
    · push_neg at h1
      obtain ⟨f, hf, hcond⟩ := h1
      by_cases ha : isAlphaNumeric f = true
      · refine Or.inr (Or.inl ⟨f, hf, ?_⟩)
        exact Bool.eq_false_iff.mpr fun hv => hcond ha hv
      · exact Or.inl ⟨f, hf, Bool.eq_false_iff.mpr ha⟩
  · rintro (⟨f, hf, hfa⟩ | ⟨f, hf, hfv⟩ | ⟨f, hf, g, hg, hfv, hgv, he⟩) ⟨h1, h2, h3⟩
    · exact absurd (h1 f hf).1 (by simp [hfa])
    · exact absurd (h1 f hf).2 (by simp [hfv])
    · exact h3 f hf g hg he

/-- Claim C5 counterexample: input ["nologin"] succeeds, but the returned
list is empty: NOLOGIN is dropped from the output, so the result does not
consist of the upper-cased supplied flags as the claim states. -/
theorem normalizeUserFlags_nologin_counterexample :
    normalizeUserFlags ["nologin"] = .ok [] ∧ toUpperGo "nologin" = "NOLOGIN" ∧
      "NOLOGIN" ∉ ([] : List String) :=
  ⟨rfl, by decide, by decide⟩

/-- Claim C5 (amended): `normalizeUserFlags` errors iff some flag is not
alphanumeric, is not a recognized role flag after upper-casing, or conflicts
with another supplied flag as a pair X / NOX (and for ["inherit","noinherit"]
the error message names both conflicting flags); on success the returned list
consists of the upper-cased flags except NOLOGIN, which is dropped, plus
LOGIN unless LOGIN or NOLOGIN was supplied explicitly. -/
theorem normalizeUserFlags_spec (userFlags : List String) :
    (exceptOk (normalizeUserFlags userFlags) = false ↔ flagsError userFlags) ∧
      (∀ flags, normalizeUserFlags userFlags = .ok flags → ∀ g,
        g ∈ flags ↔
          ((∃ f ∈ userFlags, (toUpperGo f) = g) ∧ g ≠ roleFlagNoLogin) ∨
            (g = roleFlagLogin ∧ ∀ f ∈ userFlags,
              (toUpperGo f) ≠ roleFlagLogin ∧ (toUpperGo f) ≠ roleFlagNoLogin)) ∧
      normalizeUserFlags ["inherit", "noinherit"] =
        .error "conflicting user flags: \"NOINHERIT\" and \"INHERIT\"" := by
  refine ⟨?_, ?_, rfl⟩
  · rw [normalizeUserFlags_isOk, processUserFlags_isOk userFlags [] accInv_nil,
      ← flagsOkAux_nil_false]
  · intro flags h g
    cases hp : processUserFlags [] userFlags with
    | error e =>
      rw [show normalizeUserFlags userFlags = .error e by
        simp [normalizeUserFlags, hp]] at h
      cases h
    | ok uniq =>
      have hflags : flags =
          if !(uniq.contains roleFlagNoLogin || uniq.contains roleFlagLogin) then
            (uniq.filter fun k => k != roleFlagNoLogin) ++ [roleFlagLogin]
          else uniq.filter fun k => k != roleFlagNoLogin := by
        have : normalizeUserFlags userFlags = .ok
            (if !(uniq.contains roleFlagNoLogin || uniq.contains roleFlagLogin) then
              (uniq.filter fun k => k != roleFlagNoLogin) ++ [roleFlagLogin]
            else uniq.filter fun k => k != roleFlagNoLogin) := by
          simp [normalizeUserFlags, hp]
        rw [this] at h
        cases h
        rfl
      have hmem : ∀ a, a ∈ uniq ↔ ∃ f ∈ userFlags, (toUpperGo f) = a := by
        intro a
        rw [processUserFlags_mem userFlags [] uniq hp a]
        simp
      have haddIff : (!(uniq.contains roleFlagNoLogin ||
          uniq.contains roleFlagLogin)) = true ↔
          ∀ f ∈ userFlags, (toUpperGo f) ≠ roleFlagLogin ∧ (toUpperGo f) ≠ roleFlagNoLogin := by
        have hcontains : (!(uniq.contains roleFlagNoLogin ||
            uniq.contains roleFlagLogin)) = true ↔
            roleFlagNoLogin ∉ uniq ∧ roleFlagLogin ∉ uniq := by
          simp
        rw [hcontains]
        constructor
        · rintro ⟨hn, hl⟩ f hf
          exact ⟨fun he => hl ((hmem roleFlagLogin).mpr ⟨f, hf, he⟩),
            fun he => hn ((hmem roleFlagNoLogin).mpr ⟨f, hf, he⟩)⟩
        · intro hall
          refine ⟨fun hc => ?_, fun hc => ?_⟩
          · obtain ⟨f, hf, he⟩ := (hmem roleFlagNoLogin).mp hc
            exact (hall f hf).2 he
          · obtain ⟨f, hf, he⟩ := (hmem roleFlagLogin).mp hc
            exact (hall f hf).1 he
      by_cases hadd : (!(uniq.contains roleFlagNoLogin ||
          uniq.contains roleFlagLogin)) = true
      · rw [hflags, if_pos hadd]
        simp only [List.mem_append, List.mem_singleton, List.mem_filter,
          bne_iff_ne]
        rw [hmem g]
        constructor
        · rintro (⟨hg, hne⟩ | hg)
          · exact Or.inl ⟨hg, hne⟩
          · exact Or.inr ⟨hg, haddIff.mp hadd⟩
        · rintro (⟨hg, hne⟩ | ⟨hg, -⟩)
          · exact Or.inl ⟨hg, hne⟩
          · exact Or.inr hg
      · rw [hflags, if_neg hadd]
        simp only [List.mem_filter, bne_iff_ne]
        rw [hmem g]
        constructor
        · rintro ⟨hg, hne⟩
          exact Or.inl ⟨hg, hne⟩
        · rintro (⟨hg, hne⟩ | ⟨hg, hall⟩)
          · exact ⟨hg, hne⟩
          · exact absurd (haddIff.mpr hall) hadd

/-- Witness for the amended C5 at the input ["superuser"]. -/
theorem normalizeUserFlags_spec_witness :
    normalizeUserFlags ["superuser"] = .ok ["SUPERUSER", "LOGIN"] ∧
      ("LOGIN" ∈ ["SUPERUSER", "LOGIN"] ↔
        ((∃ f ∈ ["superuser"], toUpperGo f = "LOGIN") ∧ "LOGIN" ≠ roleFlagNoLogin) ∨
          ("LOGIN" = roleFlagLogin ∧ ∀ f ∈ ["superuser"],
            toUpperGo f ≠ roleFlagLogin ∧ toUpperGo f ≠ roleFlagNoLogin)) :=
  ⟨rfl, (normalizeUserFlags_spec ["superuser"]).2.1 ["SUPERUSER", "LOGIN"] rfl "LOGIN"⟩
